import Mathlib

/-!
Verification of the Deep-Lynx data-warehouse specification against a shallow
embedding of the repository's TypeScript sources.  Pure functions are embedded
as Lean functions; stateful repository/route code is embedded as explicit
state-passing functions; the `Result` success/failure envelope mirrors the
repository's `common_classes/result`.
-/

set_option maxHeartbeats 1000000

/-- The uniform success/failure envelope (`common_classes/result.ts`):
either a value or an error message. -/
inductive DLResult (α : Type) where
  | success (value : α) : DLResult α
  | failure (msg : String) : DLResult α
deriving DecidableEq, Repr

/-- Mirrors `Result.isError`. -/
def DLResult.isError {α : Type} : DLResult α → Bool
  | .success _ => false
  | .failure _ => true

/-! ## JSON payloads and shape fingerprinting (spec §4.1)

The shape-fingerprint implementation (the type-mapping shape hasher) is not
among the provided sources; it is modelled from the spec below. -/

/-- A JSON-like payload value: a tagged tree of scalars, arrays and objects
(spec §9: "represent as a tagged-value tree").  Numbers are modelled as
integers, which suffices for structural properties. -/
inductive Json where
  | null : Json
  | bool (b : Bool) : Json
  | num (n : Int) : Json
  | str (s : String) : Json
  | arr (items : List Json) : Json
  | obj (entries : List (String × Json)) : Json

/-- True for the scalar (non-array, non-object) payload variants. -/
def Json.isScalar : Json → Bool
  | .null => true
  | .bool _ => true
  | .num _ => true
  | .str _ => true
  | .arr _ => false
  | .obj _ => false

/-- The structural "shape" of a payload: key names and nesting with the
array-vs-object distinction, all scalar values collapsed. -/
inductive Shape where
  | scalar : Shape
  | arrS (inner : Option Shape) : Shape
  | objS (entries : List (String × Shape)) : Shape

/-- Ordering of shape entries by key name, used to canonicalise object key
order before hashing. -/
def keyle (p q : String × Shape) : Prop := p.1 ≤ q.1

instance : DecidableRel keyle := fun p q => inferInstanceAs (Decidable (p.1 ≤ q.1))

instance : IsTotal (String × Shape) keyle := ⟨fun p q => le_total p.1 q.1⟩

instance : IsTrans (String × Shape) keyle := ⟨fun _ _ _ h₁ h₂ => le_trans h₁ h₂⟩

/-- Strict version of `keyle`. -/
def keylt (p q : String × Shape) : Prop := p.1 < q.1

instance : IsAntisymm (String × Shape) keylt :=
  ⟨fun _ _ h₁ h₂ => absurd (lt_trans h₁ h₂) (lt_irrefl _)⟩

mutual
/-- Modelled from the spec: the structural shape of a payload — "key names +
nesting, not values" (§4.1); scalar values collapse to a single marker, an
array is sampled by its first element's shape, object entries are
canonicalised by sorting on key name so the result is "deterministic under
key reordering within an object". -/
def shapeOf : Json → Shape
  | .null => .scalar
  | .bool _ => .scalar
  | .num _ => .scalar
  | .str _ => .scalar
  | .arr [] => .arrS none
  | .arr (v :: _) => .arrS (some (shapeOf v))
  | .obj entries => .objS (List.insertionSort keyle (shapeOfEntries entries))
termination_by j => sizeOf j
decreasing_by all_goals (simp_wf <;> omega)

/-- Shapes of an object's entries, keys retained. -/
def shapeOfEntries : List (String × Json) → List (String × Shape)
  | [] => []
  | (k, v) :: rest => (k, shapeOf v) :: shapeOfEntries rest
termination_by l => sizeOf l
decreasing_by all_goals (simp_wf <;> omega)
end

mutual
/-- Deterministic string encoding of a shape, standing in for the fixed-length
hash (collision resistance is not modelled; the claims only need that equal
structures produce equal fingerprints). -/
def renderShape : Shape → String
  | .scalar => "s"
  | .arrS none => "a()"
  | .arrS (some sh) => "a(" ++ renderShape sh ++ ")"
  | .objS entries => "o(" ++ renderEntries entries ++ ")"
termination_by sh => sizeOf sh
decreasing_by all_goals (simp_wf <;> omega)

/-- Encoding of a sorted object entry list. -/
def renderEntries : List (String × Shape) → String
  | [] => ""
  | (k, sh) :: rest => k ++ ":" ++ renderShape sh ++ ";" ++ renderEntries rest
termination_by l => sizeOf l
decreasing_by all_goals (simp_wf <;> omega)
end

/-- Modelled from the spec: `fingerprint` computes a stable hash over the
structural shape of an inbound payload (§4.1, §2.1). -/
def fingerprint (v : Json) : String := renderShape (shapeOf v)

mutual
/-- Two payloads have identical key structure: same key names, same nesting,
same array-vs-object layout; scalar values are irrelevant and object key
order is irrelevant (arrays are compared on their first element, matching the
spec's structural sampling). -/
inductive StructEq : Json → Json → Prop where
  | scalar {a b : Json} : a.isScalar = true → b.isScalar = true → StructEq a b
  | arrNil : StructEq (.arr []) (.arr [])
  | arrCons {a b : Json} {as bs : List Json} :
      StructEq a b → StructEq (.arr (a :: as)) (.arr (b :: bs))
  | obj {l₁ l₂ : List (String × Json)} :
      (l₁.map Prod.fst).Nodup → (l₂.map Prod.fst).Nodup →
      EntriesEquiv l₁ l₂ → StructEq (.obj l₁) (.obj l₂)

/-- Object entry lists match up to reordering, with structurally equal values
under equal keys. -/
inductive EntriesEquiv : List (String × Json) → List (String × Json) → Prop where
  | nil : EntriesEquiv [] []
  | cons {k : String} {v₁ v₂ : Json} {l₁ l₂ : List (String × Json)} :
      StructEq v₁ v₂ → EntriesEquiv l₁ l₂ →
      EntriesEquiv ((k, v₁) :: l₁) ((k, v₂) :: l₂)
  | swap {k₁ k₂ : String} {v₁ v₂ v₁' v₂' : Json} {l₁ l₂ : List (String × Json)} :
      StructEq v₁ v₁' → StructEq v₂ v₂' → EntriesEquiv l₁ l₂ →
      EntriesEquiv ((k₁, v₁) :: (k₂, v₂) :: l₁) ((k₂, v₂') :: (k₁, v₁') :: l₂)
  | trans {l₁ l₂ l₃ : List (String × Json)} :
      EntriesEquiv l₁ l₂ → EntriesEquiv l₂ l₃ → EntriesEquiv l₁ l₃
end

/-! ## MemoryCacheImpl.get (services/cache/cache.ts) -/

/-- JavaScript falsiness on the payload values the memory cache stores:
`undefined` is represented by the surrounding `Option`, so the falsy stored
values are `null`, `false`, `0` and the empty string. -/
def jsFalsy : Json → Bool
  | .null => true
  | .bool b => !b
  | .num n => n == 0
  | .str s => s == ""
  | .arr _ => false
  | .obj _ => false

/-- `MemoryCacheImpl.get`: reads the backing node-cache (`store`, with `none`
for a key that was never set), returns `undefined` (`none`) for any falsy
stored value, otherwise attempts `JSON.parse` (an arbitrary partial `parse`
function here) and falls back to the raw value when parsing throws.  The
try/catch makes the promise always resolve, which the totality of this
function reflects. -/
def memoryCacheGet (parse : Json → Option Json) (store : String → Option Json)
    (key : String) : Option Json :=
  match store key with
  | none => none
  | some value =>
    if jsFalsy value then none
    else
      match parse value with
      | some parsed => some parsed
      | none => some value

/-! ## Time-series data source configuration (spec §4.5, §7a)

The time-series data source implementation (column validation and hypertable
creation on save) is not among the provided sources — only its test suite
(`timeseries_data_source_impl.spec.ts`) is.  The definitions below are
modelled from the spec. -/

/-- Column types appearing in the time-series configurations of the test
suite: a wall-clock date, the numeric types, and plain strings. -/
inductive ColumnType where
  | date : ColumnType
  | number : ColumnType
  | bigint : ColumnType
  | string : ColumnType
deriving DecidableEq, Repr

/-- True for the numeric (non-date) column types, which cannot be chunked by
wall-clock time. -/
def ColumnType.isNumeric : ColumnType → Bool
  | .number => true
  | .bigint => true
  | _ => false

/-- One declared column of a time-series data source
(`TimeseriesColumn`, AdminWebApp/src/api/types.ts). -/
structure TimeseriesColumn where
  column_name : String
  property_name : String
  is_primary_timestamp : Bool
  unique : Bool := false
  type : ColumnType
deriving DecidableEq, Repr

/-- Adapter-specific configuration of a time-series data source
(`TimeseriesDataSourceConfig`, AdminWebApp/src/api/types.ts): the declared
column schema and the optional chunking interval. -/
structure TimeseriesDataSourceConfig where
  columns : List TimeseriesColumn
  chunk_interval : Option String := none
deriving DecidableEq, Repr

/-- The columns flagged as primary timestamp. -/
def primaryTimestampColumns (cfg : TimeseriesDataSourceConfig) : List TimeseriesColumn :=
  cfg.columns.filter (fun c => c.is_primary_timestamp)

/-- Modelled from the spec: validation of a time-series column configuration
before first use — "exactly one column marked `is_primary_timestamp`; numeric
(non-date) primary timestamps require a configured chunking interval, since
they cannot be chunked by wall-clock time" (§4.5).  A non-date, non-numeric
primary timestamp is rejected outright, matching the test case in which a
`string` primary timestamp fails creation. -/
def validateTimeseriesConfig (cfg : TimeseriesDataSourceConfig) : DLResult Unit :=
  match primaryTimestampColumns cfg with
  | [] => .failure "no primary timestamp column defined"
  | [p] =>
    match p.type with
    | .date => .success ()
    | .number =>
      match cfg.chunk_interval with
      | some _ => .success ()
      | none => .failure "numeric primary timestamp requires a chunk interval"
    | .bigint =>
      match cfg.chunk_interval with
      | some _ => .success ()
      | none => .failure "numeric primary timestamp requires a chunk interval"
    | .string => .failure "unsupported primary timestamp column type"
  | _ :: _ :: _ => .failure "more than one primary timestamp column defined"

/-- Durable state touched by a time-series data source save: the stored data
source records and the backing hypertable schemas. -/
structure DataSourceStore where
  records : List TimeseriesDataSourceConfig
  schemas : List TimeseriesDataSourceConfig
deriving DecidableEq, Repr

/-- Modelled from the spec: saving a time-series data source validates the
column configuration first; "validation failure rejects the Data Source save
entirely (fail-fast, no partial schema creation)" (§4.5); on success the
record is persisted and the backing time-partitioned schema is created. -/
def saveTimeseriesDataSource (cfg : TimeseriesDataSourceConfig)
    (st : DataSourceStore) : DLResult Unit × DataSourceStore :=
  match validateTimeseriesConfig cfg with
  | .failure msg => (.failure msg, st)
  | .success _ => (.success (), { records := cfg :: st.records, schemas := cfg :: st.schemas })

/-! ## MetatypeKeyRepository (repositories + metatype_key_mapper.ts)

The repository is embedded as explicit state passing over a database of key
rows, a fresh-id counter, and the shared cache.  Timestamps are modelled as
presence flags; the class-validator based `validationErrors` of the domain
class is not among the sources and is passed in as a parameter. -/

/-- A metatype key row, with the columns of `metatype_keys` that the mapper's
statements read and write.  `deleted` models a non-null `deleted_at`. -/
structure MetatypeKey where
  id : Option String := none
  metatype_id : String
  container_id : Option String := none
  name : String := ""
  description : String := ""
  property_name : String := ""
  required : Bool := false
  data_type : String := ""
  options : Option String := none
  default_value : Option String := none
  validation : Option String := none
  created_by : Option String := none
  modified_by : Option String := none
  deleted : Bool := false
deriving DecidableEq, Repr

/-- JavaScript truthiness of the optional `id` field: `undefined`/`null` and
the empty string are falsy. -/
def idTruthy : Option String → Bool
  | none => false
  | some s => s ≠ ""

/-- A cached value: either a serialized metatype key list (the
`metatypes:{id}:keys` entries written by this repository) or the parent
metatype record cached by the metatype repository. -/
inductive CacheVal where
  | keyList (ks : List MetatypeKey) : CacheVal
  | metatypeEntry : CacheVal
deriving DecidableEq, Repr

/-- The shared cache, as an association list from cache key to value. -/
abbrev CacheStore : Type := List (String × CacheVal)

/-- Cache lookup. -/
def cacheGet : CacheStore → String → Option CacheVal
  | [], _ => none
  | (k, v) :: rest, key => if k = key then some v else cacheGet rest key

/-- `Cache.del`: removes every entry under the key. -/
def cacheDel : CacheStore → String → CacheStore
  | [], _ => []
  | (k, v) :: rest, key => if k = key then cacheDel rest key else (k, v) :: cacheDel rest key

/-- `Cache.set`: stores a value under the key, replacing any previous one. -/
def cacheSet (c : CacheStore) (key : String) (v : CacheVal) : CacheStore :=
  (key, v) :: cacheDel c key

/-- The cache key of a metatype record: MetatypeMapper.tableName (`metatypes`)
followed by the metatype id. -/
def metatypeCacheKey (metatypeID : String) : String := "metatypes:" ++ metatypeID

/-- The cache key of a metatype's key list
(`MetatypeMapper.tableName : metatypeID : keys`). -/
def metatypeKeysCacheKey (metatypeID : String) : String := "metatypes:" ++ metatypeID ++ ":keys"

/-- Modelled from the spec: `MetatypeRepository.deleteCached` (the metatype
repository is not among the provided sources) invalidates the parent
metatype's own cache entry on ontology mutation (§6); the container id
argument is carried for signature fidelity. -/
def metatypeRepoDeleteCached (c : CacheStore) (metatypeID : String)
    (_containerID : Option String) : CacheStore :=
  cacheDel c (metatypeCacheKey metatypeID)

/-- `MetatypeKeyRepository.deleteCachedForMetatype`: removes the cached key
list of the metatype. -/
def deleteCachedForMetatype (c : CacheStore) (metatypeID : String) : CacheStore :=
  cacheDel c (metatypeKeysCacheKey metatypeID)

/-- The pair of cache invalidations every key mutation in the repository may
fire: the parent metatype's own entry (through the metatype repository) and
the metatype's cached key list. -/
def deleteBothCached (c : CacheStore) (k : MetatypeKey) : CacheStore :=
  deleteCachedForMetatype (metatypeRepoDeleteCached c k.metatype_id k.container_id) k.metatype_id

/-- `MetatypeKeyRepository.setCachedForMetatype`: writes the key list back to
the cache. -/
def setCachedForMetatype (c : CacheStore) (metatypeID : String)
    (keys : List MetatypeKey) : CacheStore :=
  cacheSet c (metatypeKeysCacheKey metatypeID) (.keyList keys)

/-- `MetatypeKeyRepository.getCachedForMetatype`: reads the cached key list,
`none` on a miss. -/
def getCachedForMetatype (c : CacheStore) (metatypeID : String) : Option (List MetatypeKey) :=
  match cacheGet c (metatypeKeysCacheKey metatypeID) with
  | some (.keyList ks) => some ks
  | _ => none

/-- The state the repository operates on: the `metatype_keys` table, the
sequence supplying fresh row ids, and the shared cache. -/
structure RepoState where
  db : List MetatypeKey
  nextId : Nat
  cache : CacheStore
deriving DecidableEq

/-- `MetatypeKeyMapper`'s delete statement: `DELETE FROM metatype_keys WHERE
id = $1`. -/
def mapperDelete (keyID : String) (db : List MetatypeKey) : List MetatypeKey :=
  db.filter (fun r => r.id ≠ some keyID)

/-- `MetatypeKeyMapper`'s archive statement: sets `deleted_at` and the
modification audit column on the row. -/
def mapperArchive (keyID : String) (userID : String) (db : List MetatypeKey) : List MetatypeKey :=
  db.map (fun r => if r.id = some keyID then { r with deleted := true, modified_by := some userID } else r)

/-- `MetatypeKeyMapper`'s unarchive statement: clears `deleted_at`. -/
def mapperUnarchive (keyID : String) (userID : String) (db : List MetatypeKey) : List MetatypeKey :=
  db.map (fun r => if r.id = some keyID then { r with deleted := false, modified_by := some userID } else r)

/-- The row produced by the mapper's update statement for input key `k`
applied to the stored row `r`: every listed column is overwritten from `k`,
the id and the creation/deletion audit columns are untouched. -/
def updateRow (userID : String) (k r : MetatypeKey) : MetatypeKey :=
  { r with
    name := k.name
    metatype_id := k.metatype_id
    container_id := k.container_id
    description := k.description
    property_name := k.property_name
    required := k.required
    data_type := k.data_type
    options := k.options
    default_value := k.default_value
    validation := k.validation
    modified_by := some userID }

/-- `MetatypeKeyMapper.BulkUpdate`'s statement (`UPDATE ... FROM (VALUES %L)
... WHERE k.id = m.id`): each stored row matched by some input key's id is
overwritten; rows matched by no input key — and input keys matching no stored
row — are silently left alone. -/
def applyBulkUpdate (userID : String) (keys : List MetatypeKey)
    (db : List MetatypeKey) : List MetatypeKey :=
  db.map (fun r =>
    match keys.find? (fun k => k.id == r.id) with
    | some k => updateRow userID k r
    | none => r)

/-- The row inserted by the mapper's create statement for input key `k` with
the fresh id `newId`: the id column is generated, audit columns are set, and
`deleted_at` starts null. -/
def createRow (userID : String) (newId : Nat) (k : MetatypeKey) : MetatypeKey :=
  { k with
    id := some (toString newId)
    created_by := some userID
    modified_by := some userID
    deleted := false }

/-- `MetatypeKeyMapper.BulkCreate`'s statement: inserts one fresh row per
input key, in order. -/
def applyBulkCreate (userID : String) :
    List MetatypeKey → List MetatypeKey → Nat → List MetatypeKey × Nat
  | [], db, n => (db, n)
  | k :: rest, db, n => applyBulkCreate userID rest (db ++ [createRow userID n k]) (n + 1)

/-- `MetatypeKeyMapper.ListForMetatype` (the `get_metatype_keys` SQL function
resolving inherited keys is not among the sources; the source of truth is
modelled as the metatype's own stored rows).  `listFails` stands for a
database error. -/
def mapperListForMetatype (metatypeID : String) (listFails : Bool)
    (db : List MetatypeKey) : DLResult (List MetatypeKey) :=
  if listFails then .failure "db error"
  else .success (db.filter (fun r => r.metatype_id = metatypeID))

namespace MetatypeKeyRepository

/-- `MetatypeKeyRepository.delete`: with a truthy id, fires the parent
metatype's cache invalidation and the mapper's delete; otherwise fails with
`key has no id` touching nothing. -/
def delete (k : MetatypeKey) (st : RepoState) : DLResult Bool × RepoState :=
  if idTruthy k.id then
    (.success true,
      { st with
        cache := metatypeRepoDeleteCached st.cache k.metatype_id k.container_id
        db := mapperDelete (k.id.getD "") st.db })
  else (.failure "key has no id", st)

/-- `MetatypeKeyRepository.archive`. -/
def archive (userID : String) (k : MetatypeKey) (st : RepoState) : DLResult Bool × RepoState :=
  if idTruthy k.id then
    (.success true,
      { st with
        cache := metatypeRepoDeleteCached st.cache k.metatype_id k.container_id
        db := mapperArchive (k.id.getD "") userID st.db })
  else (.failure "key has no id", st)

/-- `MetatypeKeyRepository.unarchive`. -/
def unarchive (userID : String) (k : MetatypeKey) (st : RepoState) : DLResult Bool × RepoState :=
  if idTruthy k.id then
    (.success true,
      { st with
        cache := metatypeRepoDeleteCached st.cache k.metatype_id k.container_id
        db := mapperUnarchive (k.id.getD "") userID st.db })
  else (.failure "key has no id", st)

/-- `MetatypeKeyRepository.save` (`validf` is the domain class's
`validationErrors`, returning `some errors` when validation fails): validate,
clear both the parent metatype's cache entry and its cached key list, then
either update through the fetched original or create. -/
def save (validf : MetatypeKey → Option (List String)) (userID : String)
    (m : MetatypeKey) (st : RepoState) : DLResult Bool × RepoState :=
  match validf m with
  | some errs =>
    (.failure ("key does not pass validation " ++ String.intercalate "," errs), st)
  | none =>
    let c := deleteBothCached st.cache m
    if idTruthy m.id then
      match st.db.find? (fun r => r.id == m.id) with
      | none => (.failure "unable to fetch original for update", { st with cache := c })
      | some orig =>
        (.success true,
          { st with
            cache := c
            db := st.db.map (fun r => if r.id == m.id then updateRow userID m orig else r) })
    else
      (.success true,
        { db := st.db ++ [createRow userID st.nextId m]
          nextId := st.nextId + 1
          cache := c })

/-- Which external database steps of a `bulkSave` run fail, standing for the
nondeterminism of the underlying connection. -/
structure BulkEnv where
  txStartFails : Bool := false
  updateFails : Bool := false
  createFails : Bool := false
  commitFails : Bool := false
deriving DecidableEq, Repr

/-- The validation loop at the head of `bulkSave`: each key is validated (a
failure aborts the loop immediately), its parent metatype's cache entry and
cached key list are cleared, and it is routed to the update or create batch
by id truthiness. -/
def bulkValidatePhase (validf : MetatypeKey → Option (List String)) :
    List MetatypeKey → CacheStore →
    Option String × CacheStore × List MetatypeKey × List MetatypeKey
  | [], c => (none, c, [], [])
  | k :: rest, c =>
    match validf k with
    | some errs =>
      (some ("some keys do not pass validation " ++ String.intercalate "," errs), c, [], [])
    | none =>
      let c' := deleteBothCached c k
      match bulkValidatePhase validf rest c' with
      | (e, c'', upd, cre) =>
        if idTruthy k.id then (e, c'', k :: upd, cre) else (e, c'', upd, k :: cre)

/-- `MetatypeKeyRepository.bulkSave`: validate every key (clearing caches as
it goes), then run the bulk update and bulk create inside one transaction,
rolling the in-flight transaction back — leaving the stored rows untouched —
on any step's failure, and committing the pending rows on success. -/
def bulkSave (validf : MetatypeKey → Option (List String)) (userID : String)
    (env : BulkEnv) (keys : List MetatypeKey) (st : RepoState) :
    DLResult Bool × RepoState :=
  match bulkValidatePhase validf keys st.cache with
  | (some msg, c, _, _) => (.failure msg, { st with cache := c })
  | (none, c, toUpdate, toCreate) =>
    if env.txStartFails then (.failure "unable to initiate db transaction", { st with cache := c })
    else if toUpdate.length > 0 && env.updateFails then
      (.failure "bulk update failed", { st with cache := c })
    else
      let pending := if toUpdate.length > 0 then applyBulkUpdate userID toUpdate st.db else st.db
      if toCreate.length > 0 && env.createFails then
        (.failure "bulk create failed", { st with cache := c })
      else
        let created := if toCreate.length > 0
          then applyBulkCreate userID toCreate pending st.nextId
          else (pending, st.nextId)
        if env.commitFails then
          (.failure "unable to commit changes to database", { st with cache := c })
        else (.success true, { db := created.1, nextId := created.2, cache := c })

/-- `MetatypeKeyRepository.listForMetatype`: return the cached key list when
present; on a miss fall through to the mapper, cache a successful answer, and
return the mapper's result unchanged. -/
def listForMetatype (listFails : Bool) (metatypeID : String) (st : RepoState) :
    DLResult (List MetatypeKey) × RepoState :=
  match getCachedForMetatype st.cache metatypeID with
  | some cached => (.success cached, st)
  | none =>
    match mapperListForMetatype metatypeID listFails st.db with
    | .failure msg => (.failure msg, st)
    | .success ks =>
      (.success ks, { st with cache := setCachedForMetatype st.cache metatypeID ks })

end MetatypeKeyRepository

/-! ## DataSourceRoutes.deleteDataSource (data_source_routes.ts) -/

/-- `String(q)` on an optional Express query parameter: an absent parameter
stringifies to `"undefined"`. -/
def jsStringOf : Option String → String
  | none => "undefined"
  | some s => s

/-- JavaScript `toLowerCase()` on the ASCII strings the routes compare,
character by character. -/
def jsToLower (s : String) : String := ⟨s.data.map Char.toLower⟩

/-- The repository call the DELETE handler dispatches to. -/
inductive DeleteRouteOutcome where
  | archiveCall : DeleteRouteOutcome
  | deleteCall (force : Bool) (removeData : Bool) : DeleteRouteOutcome
  | routeFailure (msg : String) (code : Nat) : DeleteRouteOutcome
deriving DecidableEq, Repr

/-- `DataSourceRoutes.deleteDataSource`: with a data source attached to the
request and `archive` lowercasing to `"true"`, archive it; with a data source
otherwise, hard-delete it, forcing and cascading staged data per the
lowercased `forceDelete` and `removeData` parameters; without a data source,
fail with 404. -/
def deleteDataSourceRoute (hasDataSource : Bool)
    (qArchive qForceDelete qRemoveData : Option String) : DeleteRouteOutcome :=
  if hasDataSource && (jsToLower (jsStringOf qArchive) == "true") then .archiveCall
  else if hasDataSource then
    .deleteCall (jsToLower (jsStringOf qForceDelete) == "true")
      (jsToLower (jsStringOf qRemoveData) == "true")
  else .routeFailure "unable to find data source" 404

/-! ## Import records (domain_objects/data_warehouse/import/import.ts) -/

/-- The closed set of import statuses, from the `status` union type. -/
inductive ImportStatus where
  | ready : ImportStatus
  | processing : ImportStatus
  | error : ImportStatus
  | stopped : ImportStatus
  | completed : ImportStatus
deriving DecidableEq, Repr

/-- An `Import` record (the source class is named `Import`): batch identity,
status with message, and the aggregate counts pulled in by joins. -/
structure ImportRecord where
  id : Option String := none
  data_source_id : Option String := none
  status_message : Option String := none
  status : ImportStatus := .ready
  reference : Option String := none
  total_records : Option Int := none
  records_inserted : Option Int := none
  total_errors : Option Int := none
deriving DecidableEq, Repr

/-- The constructor input of `Import`. -/
structure ImportInput where
  data_source_id : String
  status_message : Option String := none
  reference : Option String := none
deriving DecidableEq, Repr

/-- An optional string surviving the constructor's truthiness guard
(`if (input.status_message) ...`). -/
def truthyString : Option String → Option String
  | none => none
  | some s => if s = "" then none else some s

/-- The `Import` constructor: copies the identifying fields through the
truthiness guards and leaves everything else at its declared default —
status `ready`, no aggregate counts. -/
def newImportRecord (input : ImportInput) : ImportRecord :=
  { data_source_id := some input.data_source_id
    status_message := truthyString input.status_message
    reference := truthyString input.reference }

/-- The cache state after the validation loop of `bulkSave` has cleared the
cache entries of every key in the list. -/
def phaseCache (keys : List MetatypeKey) (c : CacheStore) : CacheStore :=
  keys.foldl deleteBothCached c

/-! ## Concrete inputs for witnesses and counterexamples -/

/-- An empty data source store. -/
def emptyDataSourceStore : DataSourceStore := { records := [], schemas := [] }

/-- The time-series configuration of the test suite with no column flagged as
primary timestamp. -/
def tsCfgNoPrimary : TimeseriesDataSourceConfig :=
  { columns := [{ column_name := "temperature", property_name := "Temperature (K)",
                  is_primary_timestamp := false, type := .number }] }

/-- The time-series configuration of the test suite with two columns flagged
as primary timestamp. -/
def tsCfgTwoPrimary : TimeseriesDataSourceConfig :=
  { columns :=
      [{ column_name := "primary_timestamp", property_name := "timestamp",
         is_primary_timestamp := true, type := .number },
       { column_name := "primary_timestamp2", property_name := "timestamp",
         is_primary_timestamp := true, type := .number },
       { column_name := "temperature", property_name := "Temperature (K)",
         is_primary_timestamp := false, type := .number }] }

/-- The column list of the test suite with a single numeric primary
timestamp. -/
def tsColsNumericPrimary : List TimeseriesColumn :=
  [{ column_name := "primary_timestamp", property_name := "timestamp",
     is_primary_timestamp := true, type := .number },
   { column_name := "temperature", property_name := "Temperature (K)",
     is_primary_timestamp := false, type := .number }]

/-- A metatype key without an id. -/
def kNoId : MetatypeKey := { metatype_id := "1", name := "key without id" }

/-- A metatype key carrying an id that matches no stored row. -/
def keyPhantom : MetatypeKey := { id := some "99", metatype_id := "1", name := "phantom" }

/-- A stored metatype key with id `5` under metatype `1`. -/
def kWithId : MetatypeKey :=
  { id := some "5", metatype_id := "1", container_id := some "c1", name := "stored key" }

/-- An empty repository state. -/
def repoState0 : RepoState := { db := [], nextId := 0, cache := [] }

/-- A repository state whose cache holds both the key list and the metatype
entry of metatype `1`. -/
def stCached : RepoState :=
  { db := [kWithId]
    nextId := 6
    cache := [(metatypeKeysCacheKey "1", .keyList [kWithId]), (metatypeCacheKey "1", .metatypeEntry)] }

/-- A validator under which every key passes. -/
def validNone : MetatypeKey → Option (List String) := fun _ => none

/-- A bulk environment in which every database step succeeds. -/
def env0 : MetatypeKeyRepository.BulkEnv := {}

/-! ## Theorems -/

theorem shapeOf_scalar {a : Json} (h : a.isScalar = true) : shapeOf a = .scalar := by
  cases a
  case null => simp [shapeOf]
  case bool => simp [shapeOf]
  case num => simp [shapeOf]
  case str => simp [shapeOf]
  case arr => simp [Json.isScalar] at h
  case obj => simp [Json.isScalar] at h

theorem shapeOf_arr_cons (v : Json) (vs : List Json) :
    shapeOf (.arr (v :: vs)) = .arrS (some (shapeOf v)) := by
  simp [shapeOf]

theorem shapeOf_obj (l : List (String × Json)) :
    shapeOf (.obj l) = .objS (List.insertionSort keyle (shapeOfEntries l)) := by
  simp [shapeOf]

theorem shapeOfEntries_nil : shapeOfEntries [] = [] := by simp [shapeOfEntries]

theorem shapeOfEntries_cons (k : String) (v : Json) (rest : List (String × Json)) :
    shapeOfEntries ((k, v) :: rest) = (k, shapeOf v) :: shapeOfEntries rest := by
  simp [shapeOfEntries]

theorem shapeOfEntries_map_fst (l : List (String × Json)) :
    (shapeOfEntries l).map Prod.fst = l.map Prod.fst := by
  induction l with
  | nil => simp [shapeOfEntries_nil]
  | cons p rest ih =>
    obtain ⟨k, v⟩ := p
    simp [shapeOfEntries_cons, ih]

theorem sorted_keylt_of_sorted_keyle {s : List (String × Shape)}
    (h : List.Pairwise keyle s) (hn : (s.map Prod.fst).Nodup) : List.Pairwise keylt s := by
  induction h with
  | nil => exact .nil
  | cons hhead _ ih =>
    rw [List.map_cons, List.nodup_cons] at hn
    refine .cons ?_ (ih hn.2)
    intro q hq
    exact lt_of_le_of_ne (hhead q hq) fun he => hn.1 (he ▸ List.mem_map_of_mem Prod.fst hq)

theorem insertionSort_eq_of_perm {l₁ l₂ : List (String × Shape)}
    (hp : l₁.Perm l₂) (hn : (l₁.map Prod.fst).Nodup) :
    List.insertionSort keyle l₁ = List.insertionSort keyle l₂ := by
  have hperm : (List.insertionSort keyle l₁).Perm (List.insertionSort keyle l₂) :=
    (List.perm_insertionSort keyle l₁).trans (hp.trans (List.perm_insertionSort keyle l₂).symm)
  have hn₁ : ((List.insertionSort keyle l₁).map Prod.fst).Nodup :=
    (((List.perm_insertionSort keyle l₁).map Prod.fst).nodup_iff).mpr hn
  have hn₂ : ((List.insertionSort keyle l₂).map Prod.fst).Nodup :=
    ((hperm.map Prod.fst).nodup_iff).mp hn₁
  exact List.eq_of_perm_of_sorted hperm
    (sorted_keylt_of_sorted_keyle (List.sorted_insertionSort keyle l₁) hn₁)
    (sorted_keylt_of_sorted_keyle (List.sorted_insertionSort keyle l₂) hn₂)

theorem structEq_shapeOf {a b : Json} (h : StructEq a b) : shapeOf a = shapeOf b := by
  refine @StructEq.rec
    (fun a b _ => shapeOf a = shapeOf b)
    (fun l₁ l₂ _ => (shapeOfEntries l₁).Perm (shapeOfEntries l₂))
    ?_ ?_ ?_ ?_ ?_ ?_ ?_ ?_ a b h
  · intro a b ha hb
    rw [shapeOf_scalar ha, shapeOf_scalar hb]
  · rfl
  · intro a b as bs _ ih
    rw [shapeOf_arr_cons, shapeOf_arr_cons, ih]
  · intro l₁ l₂ hn₁ _ _ ihp
    rw [shapeOf_obj, shapeOf_obj]
    exact congrArg Shape.objS
      (insertionSort_eq_of_perm ihp (by rw [shapeOfEntries_map_fst]; exact hn₁))
  · exact .refl _
  · intro k v₁ v₂ l₁ l₂ _ _ ihv ihl
    rw [shapeOfEntries_cons, shapeOfEntries_cons, ihv]
    exact .cons _ ihl
  · intro k₁ k₂ v₁ v₂ v₁' v₂' l₁ l₂ _ _ _ ihv₁ ihv₂ ihl
    rw [shapeOfEntries_cons, shapeOfEntries_cons, shapeOfEntries_cons, shapeOfEntries_cons,
      ihv₁, ihv₂]
    exact (List.Perm.swap _ _ _).trans ((ihl.cons _).cons _)
  · intro l₁ l₂ l₃ _ _ ih₁ ih₂
    exact ih₁.trans ih₂

/-- C3: payloads with identical key structure — same key names, nesting and
array-vs-object layout, irrespective of scalar values and of key order within
objects — receive equal fingerprints. -/
theorem claim_C3_fingerprint_structural (P₁ P₂ : Json) (h : StructEq P₁ P₂) :
    fingerprint P₁ = fingerprint P₂ :=
  congrArg renderShape (structEq_shapeOf h)

/-- C3 witness: two concrete payloads with the same key structure but
different scalar values and reversed key order fingerprint identically. -/
theorem claim_C3_witness :
    fingerprint (Json.obj [("a", .num 1), ("b", .str "x")]) =
      fingerprint (Json.obj [("b", .null), ("a", .num 2)]) :=
  claim_C3_fingerprint_structural _ _
    (.obj (by decide) (by decide)
      (.swap (.scalar rfl rfl) (.scalar rfl rfl) .nil))

/-- C10: `MemoryCacheImpl.get` resolves to `undefined` both when the key was
never set and when the stored value is falsy, so a stored falsy value is
indistinguishable from a miss; totality of the embedding reflects that the
promise always resolves. -/
theorem claim_C10_memory_cache_get (parse : Json → Option Json)
    (store : String → Option Json) (key : String) :
    (store key = none → memoryCacheGet parse store key = none) ∧
    (∀ v, store key = some v → jsFalsy v = true → memoryCacheGet parse store key = none) := by
  constructor
  · intro h
    simp [memoryCacheGet, h]
  · intro v hv hf
    simp [memoryCacheGet, hv, hf]

/-- C10 witness: a concrete store holding `0` under `"zero"` yields
`undefined` both for the unset key `"missing"` and for `"zero"`. -/
theorem claim_C10_witness :
    memoryCacheGet (fun _ => none) (fun k => if k = "zero" then some (.num 0) else none)
      "missing" = none ∧
    memoryCacheGet (fun _ => none) (fun k => if k = "zero" then some (.num 0) else none)
      "zero" = none :=
  ⟨(claim_C10_memory_cache_get _ _ _).1 rfl,
   (claim_C10_memory_cache_get _ _ _).2 (.num 0) rfl rfl⟩

/-- C1: a time-series configuration without exactly one primary-timestamp
column fails the save, and the rejected save creates no data source record
and no backing schema. -/
theorem claim_C1_primary_timestamp_count (cfg : TimeseriesDataSourceConfig)
    (st : DataSourceStore) (h : (primaryTimestampColumns cfg).length ≠ 1) :
    (saveTimeseriesDataSource cfg st).1.isError = true ∧
    (saveTimeseriesDataSource cfg st).2 = st := by
  cases hp : primaryTimestampColumns cfg with
  | nil => simp [saveTimeseriesDataSource, validateTimeseriesConfig, hp, DLResult.isError]
  | cons p rest =>
    cases rest with
    | nil => exact absurd (by rw [hp]; rfl) h
    | cons q rest' =>
      simp [saveTimeseriesDataSource, validateTimeseriesConfig, hp, DLResult.isError]

/-- C1 witness: the test suite's zero-primary and two-primary configurations
are both rejected without touching the store. -/
theorem claim_C1_witness :
    ((primaryTimestampColumns tsCfgNoPrimary).length ≠ 1 ∧
      (saveTimeseriesDataSource tsCfgNoPrimary emptyDataSourceStore).1.isError = true ∧
      (saveTimeseriesDataSource tsCfgNoPrimary emptyDataSourceStore).2 = emptyDataSourceStore) ∧
    ((primaryTimestampColumns tsCfgTwoPrimary).length ≠ 1 ∧
      (saveTimeseriesDataSource tsCfgTwoPrimary emptyDataSourceStore).1.isError = true ∧
      (saveTimeseriesDataSource tsCfgTwoPrimary emptyDataSourceStore).2 = emptyDataSourceStore) :=
  ⟨⟨by decide, claim_C1_primary_timestamp_count tsCfgNoPrimary emptyDataSourceStore (by decide)⟩,
   ⟨by decide, claim_C1_primary_timestamp_count tsCfgTwoPrimary emptyDataSourceStore (by decide)⟩⟩

/-- C2: a configuration whose single primary timestamp has a numeric type
fails the save without a chunk interval — leaving the store untouched — and
the identical column configuration with a chunk interval saves
successfully. -/
theorem claim_C2_numeric_primary_chunk_interval (cols : List TimeseriesColumn)
    (p : TimeseriesColumn) (ci : String) (st₁ st₂ : DataSourceStore)
    (hf : cols.filter (fun c => c.is_primary_timestamp) = [p])
    (hn : p.type.isNumeric = true) :
    (saveTimeseriesDataSource { columns := cols } st₁).1.isError = true ∧
    (saveTimeseriesDataSource { columns := cols } st₁).2 = st₁ ∧
    (saveTimeseriesDataSource { columns := cols, chunk_interval := some ci } st₂).1 =
      .success () := by
  have h₁ : primaryTimestampColumns { columns := cols } = [p] := hf
  have h₂ : primaryTimestampColumns { columns := cols, chunk_interval := some ci } = [p] := hf
  cases hpt : p.type with
  | date => rw [hpt] at hn; exact absurd hn (by simp [ColumnType.isNumeric])
  | number =>
    refine ⟨?_, ?_, ?_⟩ <;>
      simp [saveTimeseriesDataSource, validateTimeseriesConfig, h₁, h₂, hpt, DLResult.isError]
  | bigint =>
    refine ⟨?_, ?_, ?_⟩ <;>
      simp [saveTimeseriesDataSource, validateTimeseriesConfig, h₁, h₂, hpt, DLResult.isError]
  | string => rw [hpt] at hn; exact absurd hn (by simp [ColumnType.isNumeric])

/-- C2 witness: the test suite's numeric-primary column list is rejected with
no chunk interval and accepted with chunk interval `1000`. -/
theorem claim_C2_witness :
    (saveTimeseriesDataSource { columns := tsColsNumericPrimary } emptyDataSourceStore).1.isError
        = true ∧
    (saveTimeseriesDataSource { columns := tsColsNumericPrimary } emptyDataSourceStore).2 =
      emptyDataSourceStore ∧
    (saveTimeseriesDataSource
        { columns := tsColsNumericPrimary, chunk_interval := some "1000" }
        emptyDataSourceStore).1 = .success () :=
  claim_C2_numeric_primary_chunk_interval tsColsNumericPrimary
    { column_name := "primary_timestamp", property_name := "timestamp",
      is_primary_timestamp := true, type := .number }
    "1000" emptyDataSourceStore emptyDataSourceStore (by decide) (by decide)

/-- C7: with a data source present, an `archive` query parameter lowercasing
to `true` archives it, anything else hard-deletes it cascading staged data
exactly when `removeData` lowercases to `true`; with no data source the
route fails with 404. -/
theorem claim_C7_delete_route (qa qf qr : Option String) :
    (jsToLower (jsStringOf qa) = "true" →
      deleteDataSourceRoute true qa qf qr = .archiveCall) ∧
    (jsToLower (jsStringOf qa) ≠ "true" →
      deleteDataSourceRoute true qa qf qr =
        .deleteCall (jsToLower (jsStringOf qf) == "true") (jsToLower (jsStringOf qr) == "true")) ∧
    deleteDataSourceRoute false qa qf qr = .routeFailure "unable to find data source" 404 := by
  refine ⟨?_, ?_, ?_⟩
  · intro h
    simp [deleteDataSourceRoute, h]
  · intro h
    have hb : (jsToLower (jsStringOf qa) == "true") = false := beq_eq_false_iff_ne.mpr h
    simp [deleteDataSourceRoute, hb]
  · simp [deleteDataSourceRoute]

/-- C7 witness: `archive=TRUE` archives (case-insensitively), an absent
`archive` with `removeData=true` hard-deletes cascading staged data, and a
missing data source yields the 404 failure. -/
theorem claim_C7_witness :
    deleteDataSourceRoute true (some "TRUE") none none = .archiveCall ∧
    deleteDataSourceRoute true none none (some "true") = .deleteCall false true ∧
    deleteDataSourceRoute false none none none =
      .routeFailure "unable to find data source" 404 := by
  refine ⟨(claim_C7_delete_route (some "TRUE") none none).1 (by decide), ?_,
    (claim_C7_delete_route none none none).2.2⟩
  have h := (claim_C7_delete_route none none (some "true")).2.1 (by decide)
  rw [h]
  decide

/-- C8: every constructed import starts in status `ready` with no aggregate
counts, and the status field ranges over exactly the five declared
statuses. -/
theorem claim_C8_import_status (input : ImportInput) :
    (newImportRecord input).status = .ready ∧
    (newImportRecord input).total_records = none ∧
    (newImportRecord input).records_inserted = none ∧
    (newImportRecord input).total_errors = none ∧
    ∀ imp : ImportRecord,
      imp.status = .ready ∨ imp.status = .processing ∨ imp.status = .error ∨
        imp.status = .stopped ∨ imp.status = .completed := by
  refine ⟨rfl, rfl, rfl, rfl, ?_⟩
  intro imp
  cases h : imp.status <;> simp

/-- C9: deleting, archiving or unarchiving a metatype key without an id fails
with `key has no id` and leaves the repository state untouched. -/
theorem claim_C9_no_id_mutations (userID : String) (k : MetatypeKey) (st : RepoState)
    (h : k.id = none) :
    MetatypeKeyRepository.delete k st = (.failure "key has no id", st) ∧
    MetatypeKeyRepository.archive userID k st = (.failure "key has no id", st) ∧
    MetatypeKeyRepository.unarchive userID k st = (.failure "key has no id", st) := by
  refine ⟨?_, ?_, ?_⟩ <;>
    simp [MetatypeKeyRepository.delete, MetatypeKeyRepository.archive,
      MetatypeKeyRepository.unarchive, idTruthy, h]

/-- C9 witness: the id-less key is rejected by all three mutations on the
empty repository state. -/
theorem claim_C9_witness :
    MetatypeKeyRepository.delete kNoId repoState0 = (.failure "key has no id", repoState0) ∧
    MetatypeKeyRepository.archive "user" kNoId repoState0 =
      (.failure "key has no id", repoState0) ∧
    MetatypeKeyRepository.unarchive "user" kNoId repoState0 =
      (.failure "key has no id", repoState0) :=
  claim_C9_no_id_mutations "user" kNoId repoState0 rfl

/-- C5: `listForMetatype` is read-through — a cached key list is returned
as-is; a miss falls through to the mapper, returns exactly the mapper's
result, and writes a successful answer back to the cache. -/
theorem claim_C5_list_read_through (listFails : Bool) (metatypeID : String) (st : RepoState) :
    (∀ ks, getCachedForMetatype st.cache metatypeID = some ks →
      MetatypeKeyRepository.listForMetatype listFails metatypeID st = (.success ks, st)) ∧
    (getCachedForMetatype st.cache metatypeID = none →
      (MetatypeKeyRepository.listForMetatype listFails metatypeID st).1 =
        mapperListForMetatype metatypeID listFails st.db ∧
      ∀ ks, mapperListForMetatype metatypeID listFails st.db = .success ks →
        getCachedForMetatype
            (MetatypeKeyRepository.listForMetatype listFails metatypeID st).2.cache metatypeID =
          some ks) := by
  constructor
  · intro ks h
    simp [MetatypeKeyRepository.listForMetatype, h]
  · intro h
    cases hm : mapperListForMetatype metatypeID listFails st.db with
    | failure msg =>
      refine ⟨?_, ?_⟩
      · simp [MetatypeKeyRepository.listForMetatype, h, hm]
      · intro ks hks
        exact absurd hks (by simp)
    | success ks =>
      refine ⟨?_, ?_⟩
      · simp [MetatypeKeyRepository.listForMetatype, h, hm]
      · intro ks' hks'
        cases hks'
        simp only [MetatypeKeyRepository.listForMetatype, h, hm]
        simp [getCachedForMetatype, setCachedForMetatype, cacheSet, cacheGet]

/-- C5 witness: a cache hit returns the cached list untouched; on the empty
state the miss returns the mapper result and caches it. -/
theorem claim_C5_witness :
    MetatypeKeyRepository.listForMetatype false "1" stCached = (.success [kWithId], stCached) ∧
    (MetatypeKeyRepository.listForMetatype false "1" repoState0).1 =
      mapperListForMetatype "1" false repoState0.db ∧
    getCachedForMetatype (MetatypeKeyRepository.listForMetatype false "1" repoState0).2.cache "1"
      = some [] := by
  refine ⟨(claim_C5_list_read_through false "1" stCached).1 [kWithId] (by decide), ?_, ?_⟩
  · exact ((claim_C5_list_read_through false "1" repoState0).2 (by decide)).1
  · exact ((claim_C5_list_read_through false "1" repoState0).2 (by decide)).2 [] (by decide)

theorem cacheGet_cacheDel_self (c : CacheStore) (x : String) :
    cacheGet (cacheDel c x) x = none := by
  induction c with
  | nil => rfl
  | cons p rest ih =>
    obtain ⟨k, v⟩ := p
    by_cases hk : k = x
    · simp [cacheDel, hk, ih]
    · simp [cacheDel, cacheGet, hk, ih]

theorem cacheGet_cacheDel_of_none {c : CacheStore} {x : String} (y : String)
    (h : cacheGet c x = none) : cacheGet (cacheDel c y) x = none := by
  induction c with
  | nil => rfl
  | cons p rest ih =>
    obtain ⟨k, v⟩ := p
    by_cases hkx : k = x
    · simp [cacheGet, hkx] at h
    · have h' : cacheGet rest x = none := by simpa [cacheGet, hkx] using h
      by_cases hky : k = y
      · simp [cacheDel, hky, ih h']
      · simp [cacheDel, cacheGet, hky, hkx, ih h']

theorem cacheGet_deleteBoth_meta (c : CacheStore) (k : MetatypeKey) :
    cacheGet (deleteBothCached c k) (metatypeCacheKey k.metatype_id) = none := by
  unfold deleteBothCached deleteCachedForMetatype metatypeRepoDeleteCached
  exact cacheGet_cacheDel_of_none _ (cacheGet_cacheDel_self _ _)

theorem cacheGet_deleteBoth_keys (c : CacheStore) (k : MetatypeKey) :
    cacheGet (deleteBothCached c k) (metatypeKeysCacheKey k.metatype_id) = none := by
  unfold deleteBothCached deleteCachedForMetatype
  exact cacheGet_cacheDel_self _ _

theorem cacheGet_deleteBoth_of_none {c : CacheStore} {x : String} (k : MetatypeKey)
    (h : cacheGet c x = none) : cacheGet (deleteBothCached c k) x = none := by
  unfold deleteBothCached deleteCachedForMetatype metatypeRepoDeleteCached
  exact cacheGet_cacheDel_of_none _ (cacheGet_cacheDel_of_none _ h)

theorem phaseCache_cons (k : MetatypeKey) (rest : List MetatypeKey) (c : CacheStore) :
    phaseCache (k :: rest) c = phaseCache rest (deleteBothCached c k) := by
  simp [phaseCache]

theorem cacheGet_phaseCache_of_none {c : CacheStore} {x : String}
    (keys : List MetatypeKey) (h : cacheGet c x = none) :
    cacheGet (phaseCache keys c) x = none := by
  induction keys generalizing c with
  | nil => exact h
  | cons k rest ih =>
    rw [phaseCache_cons]
    exact ih (cacheGet_deleteBoth_of_none k h)

theorem cacheGet_phaseCache_of_mem {keys : List MetatypeKey} {k : MetatypeKey}
    (c : CacheStore) (hk : k ∈ keys) :
    cacheGet (phaseCache keys c) (metatypeCacheKey k.metatype_id) = none ∧
    cacheGet (phaseCache keys c) (metatypeKeysCacheKey k.metatype_id) = none := by
  induction keys generalizing c with
  | nil => cases hk
  | cons a rest ih =>
    rw [phaseCache_cons]
    rcases List.mem_cons.mp hk with rfl | hmem
    · exact ⟨cacheGet_phaseCache_of_none rest (cacheGet_deleteBoth_meta c k),
        cacheGet_phaseCache_of_none rest (cacheGet_deleteBoth_keys c k)⟩
    · exact ih _ hmem

theorem bulkValidatePhase_allValid (validf : MetatypeKey → Option (List String))
    (keys : List MetatypeKey) (c : CacheStore) (h : ∀ k ∈ keys, validf k = none) :
    MetatypeKeyRepository.bulkValidatePhase validf keys c =
      (none, phaseCache keys c, keys.filter (fun k => idTruthy k.id),
        keys.filter (fun k => !idTruthy k.id)) := by
  induction keys generalizing c with
  | nil => simp [MetatypeKeyRepository.bulkValidatePhase, phaseCache]
  | cons k rest ih =>
    have hk := h k (List.mem_cons_self k rest)
    have hrest : ∀ k' ∈ rest, validf k' = none := fun k' h' => h k' (List.mem_cons_of_mem _ h')
    simp only [MetatypeKeyRepository.bulkValidatePhase, hk]
    rw [ih _ hrest, phaseCache_cons]
    cases hid : idTruthy k.id <;> simp [hid, List.filter_cons]

theorem bulkValidatePhase_isSome_of_invalid (validf : MetatypeKey → Option (List String))
    (keys : List MetatypeKey) (c : CacheStore) (h : ∃ k ∈ keys, (validf k).isSome) :
    (MetatypeKeyRepository.bulkValidatePhase validf keys c).1.isSome := by
  induction keys generalizing c with
  | nil => simp at h
  | cons k rest ih =>
    cases hvk : validf k with
    | some errs => simp [MetatypeKeyRepository.bulkValidatePhase, hvk]
    | none =>
      obtain ⟨k', hk', hs⟩ := h
      rcases List.mem_cons.mp hk' with rfl | hmem
      · rw [hvk] at hs
        simp at hs
      · have hrec := ih (deleteBothCached c k) ⟨k', hmem, hs⟩
        simp only [MetatypeKeyRepository.bulkValidatePhase, hvk]
        rcases hph : MetatypeKeyRepository.bulkValidatePhase validf rest (deleteBothCached c k)
          with ⟨e, c'', upd, cre⟩
        rw [hph] at hrec
        cases hid : idTruthy k.id <;> simpa [hid] using hrec

theorem bulkSave_cache (validf : MetatypeKey → Option (List String)) (u : String)
    (env : MetatypeKeyRepository.BulkEnv) (keys : List MetatypeKey) (st : RepoState) :
    (MetatypeKeyRepository.bulkSave validf u env keys st).2.cache =
      (MetatypeKeyRepository.bulkValidatePhase validf keys st.cache).2.1 := by
  rcases hph : MetatypeKeyRepository.bulkValidatePhase validf keys st.cache
    with ⟨e, c, upd, cre⟩
  cases e with
  | some msg => simp [MetatypeKeyRepository.bulkSave, hph]
  | none =>
    simp only [MetatypeKeyRepository.bulkSave, hph]
    repeat' split
    all_goals rfl

theorem bulkSave_unchanged_of_isError (validf : MetatypeKey → Option (List String))
    (u : String) (env : MetatypeKeyRepository.BulkEnv) (keys : List MetatypeKey)
    (st : RepoState)
    (h : (MetatypeKeyRepository.bulkSave validf u env keys st).1.isError = true) :
    (MetatypeKeyRepository.bulkSave validf u env keys st).2.db = st.db ∧
    (MetatypeKeyRepository.bulkSave validf u env keys st).2.nextId = st.nextId := by
  rcases hph : MetatypeKeyRepository.bulkValidatePhase validf keys st.cache
    with ⟨e, c, upd, cre⟩
  cases e with
  | some msg => simp [MetatypeKeyRepository.bulkSave, hph]
  | none =>
    simp only [MetatypeKeyRepository.bulkSave, hph] at h ⊢
    revert h
    repeat' split
    all_goals intro h
    all_goals first
      | exact ⟨rfl, rfl⟩
      | simp [DLResult.isError] at h

theorem bulkSave_cases (validf : MetatypeKey → Option (List String)) (u : String)
    (env : MetatypeKeyRepository.BulkEnv) (keys : List MetatypeKey) (st : RepoState)
    {c : CacheStore} {upd cre : List MetatypeKey}
    (hph : MetatypeKeyRepository.bulkValidatePhase validf keys st.cache = (none, c, upd, cre)) :
    (MetatypeKeyRepository.bulkSave validf u env keys st).1.isError = true ∨
    MetatypeKeyRepository.bulkSave validf u env keys st =
      (.success true,
        { db := (if cre.length > 0
            then (applyBulkCreate u cre
              (if upd.length > 0 then applyBulkUpdate u upd st.db else st.db) st.nextId).1
            else (if upd.length > 0 then applyBulkUpdate u upd st.db else st.db))
          nextId := (if cre.length > 0
            then (applyBulkCreate u cre
              (if upd.length > 0 then applyBulkUpdate u upd st.db else st.db) st.nextId).2
            else st.nextId)
          cache := c }) := by
  simp only [MetatypeKeyRepository.bulkSave, hph]
  repeat' split
  all_goals first
    | (left; rfl)
    | (right; simp_all)

theorem applyBulkCreate_mono (u : String) :
    ∀ (cre db : List MetatypeKey) (n : Nat) (x : MetatypeKey),
      x ∈ db → x ∈ (applyBulkCreate u cre db n).1 := by
  intro cre
  induction cre with
  | nil =>
    intro db n x hx
    simpa [applyBulkCreate] using hx
  | cons k rest ih =>
    intro db n x hx
    simp only [applyBulkCreate]
    exact ih _ _ x (List.mem_append_left _ hx)

theorem applyBulkCreate_mem (u : String) :
    ∀ (cre db : List MetatypeKey) (n : Nat) (k : MetatypeKey),
      k ∈ cre → ∃ m, createRow u m k ∈ (applyBulkCreate u cre db n).1 := by
  intro cre
  induction cre with
  | nil =>
    intro db n k hk
    cases hk
  | cons a rest ih =>
    intro db n k hk
    rcases List.mem_cons.mp hk with rfl | hmem
    · refine ⟨n, ?_⟩
      simp only [applyBulkCreate]
      exact applyBulkCreate_mono u rest _ (n + 1) _
        (List.mem_append_right _ (List.mem_singleton_self _))
    · obtain ⟨m, hm⟩ := ih (db ++ [createRow u n a]) (n + 1) k hmem
      exact ⟨m, by simpa [applyBulkCreate] using hm⟩

theorem find_eq_of_nodup_ids :
    ∀ (l : List MetatypeKey) (k : MetatypeKey), k ∈ l →
      (l.map (fun x => x.id)).Nodup → l.find? (fun x => x.id == k.id) = some k := by
  intro l
  induction l with
  | nil =>
    intro k hk
    cases hk
  | cons a rest ih =>
    intro k hk hnd
    rw [List.map_cons, List.nodup_cons] at hnd
    rcases List.mem_cons.mp hk with rfl | hmem
    · exact List.find?_cons_of_pos _ (by simp)
    · have hne : (a.id == k.id) = false := by
        refine beq_eq_false_iff_ne.mpr fun he => hnd.1 ?_
        rw [he]
        exact List.mem_map_of_mem _ hmem
      rw [List.find?_cons_of_neg _ (by simp [hne])]
      exact ih k hmem hnd.2

theorem allValid_of_phase_none (validf : MetatypeKey → Option (List String))
    (keys : List MetatypeKey) (c : CacheStore)
    (h : (MetatypeKeyRepository.bulkValidatePhase validf keys c).1 = none) :
    ∀ k ∈ keys, validf k = none := by
  intro k hk
  cases hvk : validf k with
  | none => rfl
  | some errs =>
    have hsome := bulkValidatePhase_isSome_of_invalid validf keys c ⟨k, hk, by simp [hvk]⟩
    rw [h] at hsome
    simp at hsome

/-- C4 counterexample: `bulkSave` of a single key whose id matches no stored
row reports success while persisting nothing — the key is neither created nor
updated — refuting "on success every key in the list is persisted". -/
theorem claim_C4_counterexample :
    (MetatypeKeyRepository.bulkSave validNone "u" env0 [keyPhantom] repoState0).1 =
      .success true ∧
    (MetatypeKeyRepository.bulkSave validNone "u" env0 [keyPhantom] repoState0).2.db = [] := by
  constructor <;> decide

/-- C4 (amended): `bulkSave` is atomic — any validation failure, failed
transaction start, failed bulk update or create, or failed commit returns a
failure with the stored rows and id sequence untouched; on success every key
without an id is created and, when the input ids are distinct, every key
whose id matches a stored row overwrites that row; a key whose id matches no
stored row is silently skipped. -/
theorem claim_C4_bulk_save_atomic (validf : MetatypeKey → Option (List String))
    (u : String) (env : MetatypeKeyRepository.BulkEnv) (keys : List MetatypeKey)
    (st : RepoState) :
    ((MetatypeKeyRepository.bulkSave validf u env keys st).1.isError = true →
      (MetatypeKeyRepository.bulkSave validf u env keys st).2.db = st.db ∧
      (MetatypeKeyRepository.bulkSave validf u env keys st).2.nextId = st.nextId) ∧
    ((∃ k ∈ keys, (validf k).isSome) →
      (MetatypeKeyRepository.bulkSave validf u env keys st).1.isError = true) ∧
    (env.txStartFails = true →
      (MetatypeKeyRepository.bulkSave validf u env keys st).1.isError = true) ∧
    (env.commitFails = true →
      (MetatypeKeyRepository.bulkSave validf u env keys st).1.isError = true) ∧
    ((∃ k ∈ keys, idTruthy k.id = true) → env.updateFails = true →
      (MetatypeKeyRepository.bulkSave validf u env keys st).1.isError = true) ∧
    ((∃ k ∈ keys, idTruthy k.id = false) → env.createFails = true →
      (MetatypeKeyRepository.bulkSave validf u env keys st).1.isError = true) ∧
    ((MetatypeKeyRepository.bulkSave validf u env keys st).1 = .success true →
      (∀ k ∈ keys, idTruthy k.id = false →
        ∃ n, createRow u n k ∈ (MetatypeKeyRepository.bulkSave validf u env keys st).2.db) ∧
      ((keys.map (fun k => k.id)).Nodup →
        ∀ k ∈ keys, idTruthy k.id = true → ∀ r ∈ st.db, r.id = k.id →
          updateRow u k r ∈ (MetatypeKeyRepository.bulkSave validf u env keys st).2.db)) := by
  refine ⟨bulkSave_unchanged_of_isError validf u env keys st, ?_, ?_, ?_, ?_, ?_, ?_⟩
  · intro hex
    rcases hph : MetatypeKeyRepository.bulkValidatePhase validf keys st.cache
      with ⟨e, c, upd, cre⟩
    have hsome := bulkValidatePhase_isSome_of_invalid validf keys st.cache hex
    rw [hph] at hsome
    cases e with
    | none => simp at hsome
    | some msg => simp [MetatypeKeyRepository.bulkSave, hph, DLResult.isError]
  · intro htx
    rcases hph : MetatypeKeyRepository.bulkValidatePhase validf keys st.cache
      with ⟨e, c, upd, cre⟩
    cases e with
    | some msg => simp [MetatypeKeyRepository.bulkSave, hph, DLResult.isError]
    | none => simp [MetatypeKeyRepository.bulkSave, hph, htx, DLResult.isError]
  · intro hcommit
    rcases hph : MetatypeKeyRepository.bulkValidatePhase validf keys st.cache
      with ⟨e, c, upd, cre⟩
    cases e with
    | some msg => simp [MetatypeKeyRepository.bulkSave, hph, DLResult.isError]
    | none =>
      simp only [MetatypeKeyRepository.bulkSave, hph, hcommit]
      repeat' split
      all_goals first
        | rfl
        | simp_all
  · intro hex hupdf
    rcases hph : MetatypeKeyRepository.bulkValidatePhase validf keys st.cache
      with ⟨e, c, upd, cre⟩
    cases e with
    | some msg => simp [MetatypeKeyRepository.bulkSave, hph, DLResult.isError]
    | none =>
      have hvalid := allValid_of_phase_none validf keys st.cache (by rw [hph])
      have hall := bulkValidatePhase_allValid validf keys st.cache hvalid
      obtain ⟨k, hk, hid⟩ := hex
      have hlen : 0 < (keys.filter (fun k => idTruthy k.id)).length :=
        List.length_pos_of_mem (List.mem_filter.mpr ⟨hk, hid⟩)
      simp only [MetatypeKeyRepository.bulkSave, hall]
      repeat' split
      all_goals simp_all [DLResult.isError]
  · intro hex hcref
    rcases hph : MetatypeKeyRepository.bulkValidatePhase validf keys st.cache
      with ⟨e, c, upd, cre⟩
    cases e with
    | some msg => simp [MetatypeKeyRepository.bulkSave, hph, DLResult.isError]
    | none =>
      have hvalid := allValid_of_phase_none validf keys st.cache (by rw [hph])
      have hall := bulkValidatePhase_allValid validf keys st.cache hvalid
      obtain ⟨k, hk, hid⟩ := hex
      have hlen : 0 < (keys.filter (fun k => !idTruthy k.id)).length :=
        List.length_pos_of_mem (List.mem_filter.mpr ⟨hk, by simp [hid]⟩)
      simp only [MetatypeKeyRepository.bulkSave, hall]
      repeat' split
      all_goals simp_all [DLResult.isError]
  · intro hs
    have hvalid : ∀ k ∈ keys, validf k = none := by
      intro k hk
      cases hvk : validf k with
      | none => rfl
      | some errs =>
        have hsome := bulkValidatePhase_isSome_of_invalid validf keys st.cache
          ⟨k, hk, by simp [hvk]⟩
        rcases hph : MetatypeKeyRepository.bulkValidatePhase validf keys st.cache
          with ⟨e, c, upd, cre⟩
        rw [hph] at hsome
        cases e with
        | none => simp at hsome
        | some msg => simp [MetatypeKeyRepository.bulkSave, hph] at hs
    have hph := bulkValidatePhase_allValid validf keys st.cache hvalid
    rcases bulkSave_cases validf u env keys st hph with herr | heq
    · rw [hs] at herr
      simp [DLResult.isError] at herr
    · constructor
      · intro k hk hid
        have hkcre : k ∈ keys.filter (fun k => !idTruthy k.id) :=
          List.mem_filter.mpr ⟨hk, by simp [hid]⟩
        have hlen : 0 < (keys.filter (fun k => !idTruthy k.id)).length :=
          List.length_pos_of_mem hkcre
        rw [heq]
        simp only [if_pos hlen]
        exact applyBulkCreate_mem u _ _ _ k hkcre
      · intro hnd k hk hid r hr hrid
        have hkupd : k ∈ keys.filter (fun k => idTruthy k.id) :=
          List.mem_filter.mpr ⟨hk, hid⟩
        have hndupd :
            ((keys.filter (fun k => idTruthy k.id)).map (fun x => x.id)).Nodup :=
          List.Nodup.sublist (List.Sublist.map _ (List.filter_sublist keys)) hnd
        have hfind :
            (keys.filter (fun k => idTruthy k.id)).find? (fun x => x.id == k.id) = some k :=
          find_eq_of_nodup_ids _ _ hkupd hndupd
        have hmem : updateRow u k r ∈ applyBulkUpdate u (keys.filter (fun k => idTruthy k.id)) st.db := by
          refine List.mem_map.mpr ⟨r, hr, ?_⟩
          simp only [hrid, hfind]
        have hlenu : 0 < (keys.filter (fun k => idTruthy k.id)).length :=
          List.length_pos_of_mem hkupd
        rw [heq]
        by_cases hlenc : 0 < (keys.filter (fun k => !idTruthy k.id)).length
        · simp only [if_pos hlenc, if_pos hlenu]
          exact applyBulkCreate_mono u _ _ _ _ hmem
        · simp only [if_neg hlenc, if_pos hlenu]
          exact hmem

/-- C4 witness: a run mixing one update (the stored key) and one create (an
id-less key) succeeds with both keys persisted; runs whose bulk update, bulk
create, or commit step fails all report failure, the latter with the stored
rows untouched. -/
theorem claim_C4_witness :
    ((MetatypeKeyRepository.bulkSave validNone "u"
        { commitFails := true } [kWithId] stCached).1.isError = true →
      (MetatypeKeyRepository.bulkSave validNone "u"
          { commitFails := true } [kWithId] stCached).2.db = stCached.db ∧
      (MetatypeKeyRepository.bulkSave validNone "u"
          { commitFails := true } [kWithId] stCached).2.nextId = stCached.nextId) ∧
    (MetatypeKeyRepository.bulkSave validNone "u"
        { updateFails := true } [kWithId] stCached).1.isError = true ∧
    (MetatypeKeyRepository.bulkSave validNone "u"
        { createFails := true } [kNoId] repoState0).1.isError = true ∧
    (∃ n, createRow "u" n kNoId ∈
      (MetatypeKeyRepository.bulkSave validNone "u" env0 [kNoId] repoState0).2.db) ∧
    updateRow "u" kWithId kWithId ∈
      (MetatypeKeyRepository.bulkSave validNone "u" env0 [kWithId] stCached).2.db := by
  refine ⟨(claim_C4_bulk_save_atomic validNone "u" { commitFails := true } [kWithId] stCached).1,
    ?_, ?_, ?_, ?_⟩
  · exact (claim_C4_bulk_save_atomic validNone "u"
      { updateFails := true } [kWithId] stCached).2.2.2.2.1
      ⟨kWithId, List.mem_singleton_self _, by decide⟩ rfl
  · exact (claim_C4_bulk_save_atomic validNone "u"
      { createFails := true } [kNoId] repoState0).2.2.2.2.2.1
      ⟨kNoId, List.mem_singleton_self _, by decide⟩ rfl
  · exact ((claim_C4_bulk_save_atomic validNone "u" env0 [kNoId] repoState0).2.2.2.2.2.2
      (by decide)).1 kNoId (List.mem_singleton_self _) (by decide)
  · exact ((claim_C4_bulk_save_atomic validNone "u" env0 [kWithId] stCached).2.2.2.2.2.2
      (by decide)).2 (by decide) kWithId (List.mem_singleton_self _) (by decide)
      kWithId (by decide) rfl

theorem cacheGet_cacheDel_ne {x y : String} (c : CacheStore) (h : x ≠ y) :
    cacheGet (cacheDel c y) x = cacheGet c x := by
  induction c with
  | nil => rfl
  | cons p rest ih =>
    obtain ⟨k, v⟩ := p
    by_cases hky : k = y
    · have hkx : ¬k = x := fun hkx => h (hkx ▸ hky)
      simp [cacheDel, hky, cacheGet, hkx, Ne.symm h, ih]
    · by_cases hkx : k = x
      · simp [cacheDel, hky, cacheGet, hkx, h]
      · simp [cacheDel, hky, cacheGet, hkx, ih]

theorem metatypeKeysCacheKey_ne (m : String) :
    metatypeKeysCacheKey m ≠ metatypeCacheKey m := by
  intro h
  have hlen := congrArg String.length h
  simp only [metatypeKeysCacheKey, metatypeCacheKey, String.length_append] at hlen
  have h5 : (":keys").length = 5 := rfl
  omega

theorem delete_cache_of_truthy (k : MetatypeKey) (st : RepoState)
    (ht : idTruthy k.id = true) :
    (MetatypeKeyRepository.delete k st).2.cache =
      cacheDel st.cache (metatypeCacheKey k.metatype_id) := by
  simp [MetatypeKeyRepository.delete, ht, metatypeRepoDeleteCached]

theorem archive_cache_of_truthy (u : String) (k : MetatypeKey) (st : RepoState)
    (ht : idTruthy k.id = true) :
    (MetatypeKeyRepository.archive u k st).2.cache =
      cacheDel st.cache (metatypeCacheKey k.metatype_id) := by
  simp [MetatypeKeyRepository.archive, ht, metatypeRepoDeleteCached]

theorem unarchive_cache_of_truthy (u : String) (k : MetatypeKey) (st : RepoState)
    (ht : idTruthy k.id = true) :
    (MetatypeKeyRepository.unarchive u k st).2.cache =
      cacheDel st.cache (metatypeCacheKey k.metatype_id) := by
  simp [MetatypeKeyRepository.unarchive, ht, metatypeRepoDeleteCached]

theorem save_cache_of_valid (validf : MetatypeKey → Option (List String)) (u : String)
    (m : MetatypeKey) (st : RepoState) (h : validf m = none) :
    (MetatypeKeyRepository.save validf u m st).2.cache = deleteBothCached st.cache m := by
  simp only [MetatypeKeyRepository.save, h]
  repeat' split
  all_goals rfl

/-- C6 counterexample: hard-deleting a stored key leaves the parent
metatype's cached key list in place — the mutation reports success yet the
stale cached list is still served afterwards. -/
theorem claim_C6_counterexample :
    (MetatypeKeyRepository.delete kWithId stCached).1 = .success true ∧
    getCachedForMetatype (MetatypeKeyRepository.delete kWithId stCached).2.cache "1" =
      some [kWithId] := by
  constructor <;> decide

/-- C6 (amended): `save` and `bulkSave` invalidate both the parent metatype's
own cache entry and its cached key list, while `delete`, `archive` and
`unarchive` invalidate only the parent metatype's own cache entry and leave
the parent metatype's cached key list untouched in every state. -/
theorem claim_C6_cache_invalidation (validf : MetatypeKey → Option (List String))
    (u : String) (env : MetatypeKeyRepository.BulkEnv) (k : MetatypeKey)
    (keys : List MetatypeKey) (st : RepoState) (i : String) :
    (k.id = some i → i ≠ "" →
      cacheGet (MetatypeKeyRepository.delete k st).2.cache (metatypeCacheKey k.metatype_id)
          = none ∧
      cacheGet (MetatypeKeyRepository.archive u k st).2.cache (metatypeCacheKey k.metatype_id)
          = none ∧
      cacheGet (MetatypeKeyRepository.unarchive u k st).2.cache (metatypeCacheKey k.metatype_id)
          = none ∧
      cacheGet (MetatypeKeyRepository.delete k st).2.cache (metatypeKeysCacheKey k.metatype_id)
          = cacheGet st.cache (metatypeKeysCacheKey k.metatype_id) ∧
      cacheGet (MetatypeKeyRepository.archive u k st).2.cache (metatypeKeysCacheKey k.metatype_id)
          = cacheGet st.cache (metatypeKeysCacheKey k.metatype_id) ∧
      cacheGet (MetatypeKeyRepository.unarchive u k st).2.cache
          (metatypeKeysCacheKey k.metatype_id)
          = cacheGet st.cache (metatypeKeysCacheKey k.metatype_id)) ∧
    (validf k = none →
      cacheGet (MetatypeKeyRepository.save validf u k st).2.cache (metatypeCacheKey k.metatype_id)
          = none ∧
      cacheGet (MetatypeKeyRepository.save validf u k st).2.cache
          (metatypeKeysCacheKey k.metatype_id) = none) ∧
    ((∀ k' ∈ keys, validf k' = none) → ∀ k' ∈ keys,
      cacheGet (MetatypeKeyRepository.bulkSave validf u env keys st).2.cache
          (metatypeCacheKey k'.metatype_id) = none ∧
      cacheGet (MetatypeKeyRepository.bulkSave validf u env keys st).2.cache
          (metatypeKeysCacheKey k'.metatype_id) = none) := by
  refine ⟨?_, ?_, ?_⟩
  · intro hk hne
    have ht : idTruthy k.id = true := by
      rw [hk]
      simp [idTruthy, hne]
    rw [delete_cache_of_truthy k st ht, archive_cache_of_truthy u k st ht,
      unarchive_cache_of_truthy u k st ht]
    exact ⟨cacheGet_cacheDel_self _ _, cacheGet_cacheDel_self _ _,
      cacheGet_cacheDel_self _ _,
      cacheGet_cacheDel_ne _ (metatypeKeysCacheKey_ne _),
      cacheGet_cacheDel_ne _ (metatypeKeysCacheKey_ne _),
      cacheGet_cacheDel_ne _ (metatypeKeysCacheKey_ne _)⟩
  · intro hv
    rw [save_cache_of_valid validf u k st hv]
    exact ⟨cacheGet_deleteBoth_meta st.cache k, cacheGet_deleteBoth_keys st.cache k⟩
  · intro hvalid k' hk'
    have hph := bulkValidatePhase_allValid validf keys st.cache hvalid
    have hc := bulkSave_cache validf u env keys st
    rw [hph] at hc
    rw [hc]
    exact cacheGet_phaseCache_of_mem st.cache hk'

/-- C6 witness: on the cached state, `delete` clears the metatype entry while
its cached key list survives, and `save`/`bulkSave` clear the cached key list
as well. -/
theorem claim_C6_witness :
    cacheGet (MetatypeKeyRepository.delete kWithId stCached).2.cache (metatypeCacheKey "1")
        = none ∧
    cacheGet (MetatypeKeyRepository.delete kWithId stCached).2.cache (metatypeKeysCacheKey "1")
        = cacheGet stCached.cache (metatypeKeysCacheKey "1") ∧
    cacheGet (MetatypeKeyRepository.archive "u" kWithId stCached).2.cache
        (metatypeKeysCacheKey "1") = cacheGet stCached.cache (metatypeKeysCacheKey "1") ∧
    cacheGet (MetatypeKeyRepository.save validNone "u" kWithId stCached).2.cache
        (metatypeKeysCacheKey "1") = none ∧
    cacheGet (MetatypeKeyRepository.bulkSave validNone "u" env0 [kWithId] stCached).2.cache
        (metatypeKeysCacheKey "1") = none := by
  have h := claim_C6_cache_invalidation validNone "u" env0 kWithId [kWithId] stCached "5"
  exact ⟨(h.1 rfl (by decide)).1, (h.1 rfl (by decide)).2.2.2.1,
    (h.1 rfl (by decide)).2.2.2.2.1, (h.2.1 rfl).2,
    ((h.2.2 (fun _ _ => rfl)) kWithId (List.mem_singleton_self _)).2⟩
